import Mathlib

set_option maxRecDepth 8000

/-!
Verification of the retrieval / context-assembly core of the SAT knowledge
RAG system (src/rag_system.py).  Python strings are modelled as lists of
characters (`Str`); the external vector store (ChromaDB) is modelled by its
documented contract: it stores (id, embedding, document, metadata) entries
and answers nearest-neighbour queries optionally filtered by metadata
equality.  Embedding calls are modelled as a function returning `Option`
(`none` meaning the provider raised an exception); store operations that can
fail are modelled with `Except`.
-/

namespace SATRag

/-- Python strings as sequences of characters. -/
abbrev Str := List Char

/-- Metadata attached to an indexed document, as built by
`_process_subject_directory` / `_process_topic_directory` /
`_process_subtopic_directory`: keys `subject`, `type`, `title`, `file_path`
are always present, `topic` and `subtopic` only at the deeper levels. -/
structure Metadata where
  subject : Str
  type : Str
  title : Str
  file_path : Str
  topic : Option Str
  subtopic : Option Str
deriving DecidableEq

/-- One stored entry of the backing ChromaDB collection:
`collection.add` stores parallel ids, embeddings, documents and
metadatas. -/
structure Entry where
  id : Str
  embedding : List Int
  document : Str
  metadata : Metadata
deriving DecidableEq

/-- The backing collection is the list of stored entries. -/
abbrev Collection := List Entry

/-- One hit returned by `collection.query`: the stored document, its
metadata, and its distance to the query embedding (ChromaDB returns the
parallel lists `documents` / `metadatas` / `distances`; we keep them
zipped). -/
structure QueryHit where
  document : Str
  metadata : Metadata
  distance : Int
deriving DecidableEq

/-- A formatted search result as built in `search` (rag_system.py lines
266-278): content, metadata, similarity score and the convenience copies of
the metadata fields. -/
structure FormattedResult where
  content : Str
  metadata : Metadata
  similarity_score : Int
  title : Str
  subject : Str
  type : Str
  file_path : Str
deriving DecidableEq

/-- Lookup of a metadata key on a stored metadata record (Python dict
access; `topic` and `subtopic` may be absent). -/
def metaGet (m : Metadata) (k : Str) : Option Str :=
  if k = "subject".data then some m.subject
  else if k = "type".data then some m.type
  else if k = "title".data then some m.title
  else if k = "file_path".data then some m.file_path
  else if k = "topic".data then m.topic
  else if k = "subtopic".data then m.subtopic
  else none

/-- Python dict lookup with a default, `metadata.get(key, default)`. -/
def metaGetD (m : Metadata) (k d : Str) : Str :=
  (metaGet m k).getD d

/-- Squared L2 distance (the default ChromaDB metric).  The numeric values
of embedding vectors are opaque to every claim under verification, so the
floating-point coordinates are modelled as integers. -/
def sqDist (a b : List Int) : Int :=
  ((a.zip b).map (fun p => (p.1 - p.2) * (p.1 - p.2))).sum

/-- Insert a hit into a list of hits sorted by ascending distance. -/
def insertHit (h : QueryHit) : List QueryHit → List QueryHit
  | [] => [h]
  | h2 :: rest => if h.distance ≤ h2.distance then h :: h2 :: rest else h2 :: insertHit h rest

/-- Sort hits by ascending distance (nearest first), the rank order the
vector store returns. -/
def sortHits : List QueryHit → List QueryHit
  | [] => []
  | h :: rest => insertHit h (sortHits rest)

/-- Model of `collection.query` with arguments query embedding `qe`,
result count `n` and optional where clause `w`, on the stored entries:
restrict to the entries whose metadata satisfies the equality filter `w`
(if any), rank by distance to the query embedding, return the first
`n`. -/
def chromaQuery (col : Collection) (qe : List Int) (n : Nat) (w : Option (Str × Str)) : List QueryHit :=
  let filtered := match w with
    | none => col
    | some kv => col.filter (fun e => metaGet e.metadata kv.1 == some kv.2)
  (sortHits (filtered.map (fun e => ⟨e.document, e.metadata, sqDist qe e.embedding⟩))).take n

/-- Embedding generation, `_generate_embeddings` (rag_system.py lines
79-111): one embedding call per text; if the provider raises (modelled as
`embed t = none`), a zero vector of the assumed dimensionality 768 is
substituted.  The rate-limit sleep has no observable effect on the
result. -/
def generate_embeddings (embed : Str → Option (List Int)) (texts : List Str) : List (List Int) :=
  texts.map (fun t => (embed t).getD (List.replicate 768 0))

/-- Query embedding, `_generate_query_embedding` (rag_system.py lines
113-131): embed one query, falling back to the 768-dimensional zero vector
when the provider raises. -/
def generate_query_embedding (embed : Str → Option (List Int)) (query : Str) : List Int :=
  (embed query).getD (List.replicate 768 0)

/-- Where clause built in `search` (rag_system.py lines 250-253): the
equality filter on the metadata key `subject` exactly when the filter
argument is the string math or the string english, otherwise no filter. -/
def whereFor (subject_filter : Str) : Option (Str × Str) :=
  if subject_filter = "math".data ∨ subject_filter = "english".data then
    some ("subject".data, subject_filter)
  else none

/-- Formatting of one raw query hit into the result dictionary built in
`search` (rag_system.py lines 269-277): similarity is one minus distance;
the convenience fields use the metadata values with default Unknown. -/
def formatHit (h : QueryHit) : FormattedResult :=
  { content := h.document
    metadata := h.metadata
    similarity_score := 1 - h.distance
    title := metaGetD h.metadata "title".data "Unknown".data
    subject := metaGetD h.metadata "subject".data "Unknown".data
    type := metaGetD h.metadata "type".data "Unknown".data
    file_path := metaGetD h.metadata "file_path".data "Unknown".data }

/-- The `search` method (rag_system.py lines 237-284) over an abstract
store-query operation that may fail.  The whole body runs inside a
try-except block, and any exception makes `search` return the empty list;
the query-embedding step has its own internal fallback and never
raises. -/
def searchWith (embed : Str → Option (List Int))
    (storeQuery : List Int → Nat → Option (Str × Str) → Except Str (List QueryHit))
    (query subject_filter : Str) (max_results : Nat) : List FormattedResult :=
  match storeQuery (generate_query_embedding embed query) max_results (whereFor subject_filter) with
  | Except.error _ => []
  | Except.ok hits => hits.map formatHit

/-- The `search` method against the concrete model of the ChromaDB
collection (the store query itself raises no exception). -/
def search (col : Collection) (embed : Str → Option (List Int))
    (query subject_filter : Str) (max_results : Nat) : List FormattedResult :=
  searchWith embed (fun qe n w => Except.ok (chromaQuery col qe n w)) query subject_filter max_results

/-- Source attribution header of rag_system.py line 307, built from the
title, subject and type fields of a result. -/
def sourceInfo (r : FormattedResult) : Str :=
  "Source: ".data ++ r.title ++ " (".data ++ r.subject ++ ", ".data ++ r.type ++ ")".data

/-- Remaining budget of rag_system.py line 311: the maximum context length
minus the running length minus the header length minus the fixed buffer of
10.  Python integers are signed, hence `Int`. -/
def availableLength (maxLen current : Nat) (si : Str) : Int :=
  (maxLen : Int) - (current : Int) - (si.length : Int) - 10

/-- The content actually placed in a block (rag_system.py lines 313-314):
truncated to `available` characters with an appended ellipsis marker when
it is longer than `available`, kept verbatim otherwise. -/
def clippedContent (available : Int) (content : Str) : Str :=
  if available < (content.length : Int) then content.take available.toNat ++ "...".data
  else content

/-- One appended context block (rag_system.py line 316): source header,
newline, clipped content. -/
def blockFor (available : Int) (r : FormattedResult) : Str :=
  sourceInfo r ++ "\n".data ++ clippedContent available r.content

/-- The amount added to the running length for an included result: header
length plus content length plus 10 (rag_system.py line 317). -/
def addedLen (available : Int) (r : FormattedResult) : Nat :=
  (sourceInfo r).length + (clippedContent available r.content).length + 10

/-- The result loop of `get_relevant_context` (rag_system.py lines
306-320), returning the accumulated list of context parts: a block is
appended only when the available length exceeds 100; after each iteration
the loop breaks when the running length has reached the maximum context
length. -/
def assembleParts (maxLen : Nat) : List FormattedResult → Nat → List Str
  | [], _ => []
  | r :: rest, current =>
    if 100 < availableLength maxLen current (sourceInfo r) then
      if maxLen ≤ current + addedLen (availableLength maxLen current (sourceInfo r)) r then
        [blockFor (availableLength maxLen current (sourceInfo r)) r]
      else
        blockFor (availableLength maxLen current (sourceInfo r)) r ::
          assembleParts maxLen rest (current + addedLen (availableLength maxLen current (sourceInfo r)) r)
    else
      if maxLen ≤ current then [] else assembleParts maxLen rest current

/-- The block separator of rag_system.py line 322: two newlines, three
dashes, two newlines. -/
def sep : Str := "\n\n---\n\n".data

/-- Python string join with the separator `sep`. -/
def joinParts : List Str → Str
  | [] => []
  | [p] => p
  | p :: q :: rest => p ++ sep ++ joinParts (q :: rest)

/-- The sentinel returned when search yields no results (rag_system.py
line 301). -/
def sentinel : Str := "No relevant information found in the knowledge base.".data

/-- The context-assembly part of `get_relevant_context` (rag_system.py
lines 300-322), applied to the results `search` returned. -/
def contextFromResults (results : List FormattedResult) (max_context_length : Nat) : Str :=
  if results.isEmpty then sentinel
  else joinParts (assembleParts max_context_length results 0)

/-- Top-level `get_relevant_context` (rag_system.py lines 286-322): search
with a fixed result count of 3, then assemble the bounded context
string. -/
def get_relevant_context (col : Collection) (embed : Str → Option (List Int))
    (query subject_filter : Str) (max_context_length : Nat) : Str :=
  contextFromResults (search col embed query subject_filter 3) max_context_length

/-- Index build, `_build_knowledge_index` (rag_system.py lines 50-77),
over an abstract bulk-add store operation that may fail; the output of the
directory scan (the parallel documents / metadatas / ids lists) is taken
as input.  There is no try-except around the bulk add, so a store failure
propagates; embedding failures are already degraded inside
`_generate_embeddings`. -/
def build_knowledge_index (embed : Str → Option (List Int))
    (add : List Str → List Metadata → List (List Int) → List Str → Except Str Unit)
    (documents : List Str) (metadatas : List Metadata) (ids : List Str) : Except Str Unit :=
  if documents.isEmpty then Except.ok ()
  else add documents metadatas (generate_embeddings embed documents) ids

/-- The collection produced by `_build_knowledge_index` when the bulk add
succeeds against a fresh empty collection: the parallel lists are stored
as entries. -/
def build_collection (embed : Str → Option (List Int))
    (documents : List Str) (metadatas : List Metadata) (ids : List Str) : Collection :=
  if documents.isEmpty then []
  else (ids.zip ((generate_embeddings embed documents).zip (documents.zip metadatas))).map
    (fun x => ⟨x.1, x.2.1, x.2.2.1, x.2.2.2⟩)

/-- Initialization, `SATKnowledgeRAG.__init__` (rag_system.py lines
41-48), acting on the state of the persistent store for the configured
collection name: getting the collection succeeds exactly when a collection
already exists, in which case it is loaded unchanged and
`_build_knowledge_index` is not called; otherwise a new collection is
created and the index is built.  Returns the new store state together with
the collection held by the instance. -/
def rag_init (existing : Option Collection) (embed : Str → Option (List Int))
    (documents : List Str) (metadatas : List Metadata) (ids : List Str) :
    Option Collection × Collection :=
  match existing with
  | some c => (some c, c)
  | none =>
    (some (build_collection embed documents metadatas ids),
     build_collection embed documents metadatas ids)

/-- Rebuild operation, `rebuild_index` (rag_system.py lines 324-336):
delete the collection if present (a failed delete is ignored), create a
fresh one, rebuild from the scanned documents whatever the prior state
was. -/
def rebuild_index (_prior : Option Collection) (embed : Str → Option (List Int))
    (documents : List Str) (metadatas : List Metadata) (ids : List Str) :
    Option Collection × Collection :=
  (some (build_collection embed documents metadatas ids),
   build_collection embed documents metadatas ids)

/-- Total character count of a list of parts. -/
def strsLen : List Str → Nat
  | [] => 0
  | p :: rest => p.length + strsLen rest

/-- Sample metadata of a math document with a one-character title. -/
def sampleMeta : Metadata :=
  ⟨"math".data, "t".data, "T".data, "p".data, none, none⟩

/-- Sample result with short content and a short header. -/
def smallResult : FormattedResult :=
  ⟨"hello".data, sampleMeta, 1, "T".data, "math".data, "t".data, "p".data⟩

/-- Sample metadata with an 80-character title, so that the source header
alone nearly exhausts a budget of 200. -/
def longTitleMeta : Metadata :=
  ⟨"math".data, "t".data, List.replicate 80 'a', "p".data, none, none⟩

/-- Sample result whose source header is 98 characters long. -/
def longTitleResult : FormattedResult :=
  ⟨"xx".data, longTitleMeta, 1, List.replicate 80 'a', "math".data, "t".data, "p".data⟩

/-- Sample result with 300 characters of content, longer than any budget
below 329. -/
def longContentResult : FormattedResult :=
  ⟨List.replicate 300 'c', sampleMeta, 1, "T".data, "math".data, "t".data, "p".data⟩

/-- Sample stored entry with math metadata. -/
def sampleEntryMath : Entry :=
  ⟨"i1".data, [1, 2], "doc1".data, sampleMeta⟩

/-- Sample metadata of an english document. -/
def englishMeta : Metadata :=
  ⟨"english".data, "t".data, "E".data, "p2".data, none, none⟩

/-- Sample stored entry with english metadata. -/
def sampleEntryEnglish : Entry :=
  ⟨"i2".data, [0, 0], "doc2".data, englishMeta⟩

theorem strsLen_cons (p : Str) (rest : List Str) : strsLen (p :: rest) = p.length + strsLen rest :=
  rfl

/-- Joining parts costs the seven separator characters between consecutive
parts, which is dominated by nine characters per part. -/
theorem joinParts_length_le : ∀ parts : List Str, (joinParts parts).length ≤ strsLen parts + 9 * parts.length
  | [] => by simp [joinParts, strsLen]
  | [p] => by simp only [joinParts, strsLen, List.length_cons, List.length_nil]; omega
  | p :: q :: rest => by
    have ih := joinParts_length_le (q :: rest)
    have hsep : sep.length = 7 := by decide
    simp only [joinParts, strsLen, List.length_append, List.length_cons] at *
    omega

/-- The clipped content never exceeds the available budget by more than the
three characters of the ellipsis marker. -/
theorem clippedContent_length_le (av : Int) (c : Str) :
    0 ≤ av → (clippedContent av c).length ≤ av.toNat + 3 := by
  intro h
  unfold clippedContent
  split
  · next hlt =>
    have hdots : ("...".data).length = 3 := by decide
    simp only [List.length_append, List.length_take, hdots]
    omega
  · next hge => omega

theorem blockFor_length (av : Int) (r : FormattedResult) :
    (blockFor av r).length = (sourceInfo r).length + 1 + (clippedContent av r.content).length := by
  have hnl : ("\n".data).length = 1 := by decide
  simp only [blockFor, List.length_append, hnl]

/-- Loop invariant of the assembly loop: starting strictly under budget,
the accumulated parts (each charged its length plus nine) never exceed the
budget by more than the three ellipsis characters of the final truncated
block. -/
theorem assembleParts_inv (maxLen : Nat) (results : List FormattedResult) :
    ∀ current : Nat, current < maxLen →
      current + strsLen (assembleParts maxLen results current)
        + 9 * (assembleParts maxLen results current).length ≤ maxLen + 3 := by
  induction results with
  | nil =>
    intro current h
    simp only [assembleParts, strsLen, List.length_nil]
    omega
  | cons r rest ih =>
    intro current h
    have he : availableLength maxLen current (sourceInfo r)
        = (maxLen : Int) - (current : Int) - ((sourceInfo r).length : Int) - 10 := rfl
    have haddeq : addedLen (availableLength maxLen current (sourceInfo r)) r
        = (sourceInfo r).length
          + (clippedContent (availableLength maxLen current (sourceInfo r)) r.content).length
          + 10 := rfl
    by_cases h1 : 100 < availableLength maxLen current (sourceInfo r)
    · have hav : (0 : Int) ≤ availableLength maxLen current (sourceInfo r) := by omega
      have hclip := clippedContent_length_le (availableLength maxLen current (sourceInfo r)) r.content hav
      by_cases h2 : maxLen ≤ current + addedLen (availableLength maxLen current (sourceInfo r)) r
      · simp only [assembleParts, if_pos h1, if_pos h2, strsLen, List.length_cons, List.length_nil,
          blockFor_length]
        omega
      · have ihrec := ih (current + addedLen (availableLength maxLen current (sourceInfo r)) r) (by omega)
        simp only [assembleParts, if_pos h1, if_neg h2, strsLen, List.length_cons, blockFor_length]
        omega
    · have h2 : ¬ maxLen ≤ current := by omega
      have ihrec := ih current h
      simp only [assembleParts, if_neg h1, if_neg h2]
      exact ihrec

/-- Once the running length has reached the budget, the loop emits nothing
further: the head result is necessarily skipped (its available budget is
negative) and the bottom-of-loop break fires. -/
theorem assembleParts_nil_of_le (maxLen : Nat) (results : List FormattedResult) (current : Nat)
    (h : maxLen ≤ current) : assembleParts maxLen results current = [] := by
  cases results with
  | nil => rfl
  | cons r rest =>
    have h1 : ¬ 100 < availableLength maxLen current (sourceInfo r) := by
      simp only [availableLength]
      omega
    simp only [assembleParts, if_neg h1, if_pos h]

/-- Claim C1, amended to nonempty result lists: the assembled context
string has length at most the maximum context length plus the three
characters of one truncation marker, and no block is emitted from a state
whose running length already meets or exceeds the maximum context length.
With an empty result list the fixed 52-character sentinel is returned
instead, which ignores the bound. -/
theorem c1_context_length_bound (results : List FormattedResult) (maxLen : Nat)
    (hpos : 0 < maxLen) (hne : results ≠ []) :
    (contextFromResults results maxLen).length ≤ maxLen + 3 ∧
    ∀ (rs : List FormattedResult) (current : Nat), maxLen ≤ current →
      assembleParts maxLen rs current = [] := by
  constructor
  · have hinv := assembleParts_inv maxLen results 0 hpos
    have hjoin := joinParts_length_le (assembleParts maxLen results 0)
    have hempty : results.isEmpty = false := by
      cases results with
      | nil => exact absurd rfl hne
      | cons a l => rfl
    simp only [contextFromResults, hempty, Bool.false_eq_true, if_false]
    omega
  · intro rs current hc
    exact assembleParts_nil_of_le maxLen rs current hc

/-- Witness for C1 at a concrete input: one short result under budget
500. -/
theorem c1_context_length_bound_witness :
    0 < 500 ∧ [smallResult] ≠ [] ∧
    ((contextFromResults [smallResult] 500).length ≤ 500 + 3 ∧
     ∀ (rs : List FormattedResult) (current : Nat), 500 ≤ current →
       assembleParts 500 rs current = []) :=
  ⟨by decide, by decide, c1_context_length_bound [smallResult] 500 (by decide) (by decide)⟩

/-- Counterexample to claim C1 as stated: with an empty result list (here
produced by searching an empty collection) and maximum context length 10,
the returned string is the 52-character sentinel, far above the bound of
the maximum plus one truncation overshoot. -/
theorem c1_counterexample :
    (get_relevant_context [] (fun _ => none) "q".data "all".data 10).length = 52 ∧
    ¬ (52 ≤ 10 + 3) :=
  ⟨by decide, by decide⟩

/-- Claim C3, amended: when search yields no results the returned string
is exactly the sentinel of rag_system.py line 301, for every query,
subject filter and maximum context length. -/
theorem c3_sentinel_on_empty_search (col : Collection) (embed : Str → Option (List Int))
    (query subject_filter : Str) (maxLen : Nat)
    (h : search col embed query subject_filter 3 = []) :
    get_relevant_context col embed query subject_filter maxLen = sentinel := by
  simp only [get_relevant_context, contextFromResults, h, List.isEmpty_nil, if_true]

/-- Witness for C3 at a concrete input: the empty collection yields an
empty search, hence the sentinel. -/
theorem c3_sentinel_on_empty_search_witness :
    search [] (fun _ => none) "q".data "all".data 3 = [] ∧
    get_relevant_context [] (fun _ => none) "q".data "all".data 2000 = sentinel :=
  ⟨by decide, c3_sentinel_on_empty_search [] (fun _ => none) "q".data "all".data 2000 (by decide)⟩

/-- Counterexample to claim C3 as stated: the sentinel actually returned
differs from the quoted string of the claim. -/
theorem c3_counterexample :
    get_relevant_context [] (fun _ => none) "q".data "all".data 500 = sentinel ∧
    get_relevant_context [] (fun _ => none) "q".data "all".data 500
      ≠ "no relevant information found".data :=
  ⟨by decide, by decide⟩

/-- Claim C4, amended: a result whose available budget is at most 100 is
skipped, its block is not emitted and the running length is unchanged, but
assembly continues with the subsequent results (the loop only breaks when
the running length has reached the maximum context length). -/
theorem c4_skip_continues (maxLen current : Nat) (r : FormattedResult)
    (rest : List FormattedResult)
    (hskip : availableLength maxLen current (sourceInfo r) ≤ 100)
    (hgo : current < maxLen) :
    assembleParts maxLen (r :: rest) current = assembleParts maxLen rest current := by
  have h1 : ¬ 100 < availableLength maxLen current (sourceInfo r) := by omega
  have h2 : ¬ maxLen ≤ current := by omega
  simp only [assembleParts, if_neg h1, if_neg h2]

/-- Witness for C4 at a concrete input: the long-header result is skipped
under budget 200 and the loop moves on to the next result. -/
theorem c4_skip_continues_witness :
    availableLength 200 0 (sourceInfo longTitleResult) ≤ 100 ∧ 0 < 200 ∧
    assembleParts 200 [longTitleResult, smallResult] 0
      = assembleParts 200 [smallResult] 0 :=
  ⟨by decide, by decide,
   c4_skip_continues 200 0 longTitleResult [smallResult] (by decide) (by decide)⟩

/-- Counterexample to claim C4 as stated: the first result has available
budget 92, at most 100, yet assembly does not stop there; the second,
subsequent result is included and is the whole output. -/
theorem c4_counterexample :
    availableLength 200 0 (sourceInfo longTitleResult) ≤ 100 ∧
    contextFromResults [longTitleResult, smallResult] 200
      = "Source: T (math, t)\nhello".data ∧
    "Source: T (math, t)\nhello".data ≠ [] :=
  ⟨by decide, by decide, by decide⟩

/-- All results are skipped when every header leaves at most 100 available
characters at running length zero (the running length then never moves). -/
theorem assembleParts_all_skipped (maxLen : Nat) (results : List FormattedResult)
    (h : ∀ r ∈ results, (maxLen : Int) ≤ (sourceInfo r).length + 110) :
    assembleParts maxLen results 0 = [] := by
  induction results with
  | nil => rfl
  | cons r rest ih =>
    have hr := h r (by simp)
    have h1 : ¬ 100 < availableLength maxLen 0 (sourceInfo r) := by
      simp only [availableLength]
      omega
    by_cases h2 : maxLen ≤ 0
    · simp only [assembleParts, if_neg h1, if_pos h2]
    · simp only [assembleParts, if_neg h1, if_neg h2]
      exact ih (fun x hx => h x (by simp [hx]))

/-- Claim C10: when search returns a nonempty result list but every result
is excluded by the budget check, the returned context string is the empty
string, not the sentinel. -/
theorem c10_empty_string_not_sentinel (col : Collection) (embed : Str → Option (List Int))
    (query subject_filter : Str) (maxLen : Nat)
    (hne : search col embed query subject_filter 3 ≠ [])
    (hsmall : ∀ r ∈ search col embed query subject_filter 3,
      (maxLen : Int) ≤ (sourceInfo r).length + 110) :
    get_relevant_context col embed query subject_filter maxLen = [] ∧
    get_relevant_context col embed query subject_filter maxLen ≠ sentinel := by
  have hparts := assembleParts_all_skipped maxLen _ hsmall
  have hempty : (search col embed query subject_filter 3).isEmpty = false := by
    cases hs : search col embed query subject_filter 3 with
    | nil => exact absurd hs hne
    | cons a l => rfl
  have hmain : get_relevant_context col embed query subject_filter maxLen = [] := by
    simp only [get_relevant_context, contextFromResults, hempty, Bool.false_eq_true, if_false,
      hparts, joinParts]
  refine ⟨hmain, ?_⟩
  rw [hmain]
  decide

/-- Witness for C10 at a concrete input: one stored math entry is found,
but budget 50 excludes it, so the context string is empty. -/
theorem c10_empty_string_not_sentinel_witness :
    search [sampleEntryMath] (fun _ => some [0, 0]) "q".data "all".data 3 ≠ [] ∧
    (∀ r ∈ search [sampleEntryMath] (fun _ => some [0, 0]) "q".data "all".data 3,
      ((50 : Nat) : Int) ≤ (sourceInfo r).length + 110) ∧
    (get_relevant_context [sampleEntryMath] (fun _ => some [0, 0]) "q".data "all".data 50 = [] ∧
     get_relevant_context [sampleEntryMath] (fun _ => some [0, 0]) "q".data "all".data 50 ≠ sentinel) :=
  ⟨by decide, by decide,
   c10_empty_string_not_sentinel [sampleEntryMath] (fun _ => some [0, 0]) "q".data "all".data 50
     (by decide) (by decide)⟩

/-- Insertion into a sorted hit list adds no new elements. -/
theorem mem_insertHit (x h : QueryHit) (l : List QueryHit) :
    x ∈ insertHit h l → x = h ∨ x ∈ l := by
  induction l with
  | nil =>
    intro hx
    simp only [insertHit, List.mem_singleton] at hx
    exact Or.inl hx
  | cons h2 rest ih =>
    intro hx
    simp only [insertHit] at hx
    split at hx
    · simp only [List.mem_cons] at hx
      rcases hx with h3 | h3 | h3
      · exact Or.inl h3
      · exact Or.inr (by simp [h3])
      · exact Or.inr (by simp [h3])
    · simp only [List.mem_cons] at hx
      rcases hx with h3 | h3
      · exact Or.inr (by simp [h3])
      · rcases ih h3 with h4 | h4
        · exact Or.inl h4
        · exact Or.inr (by simp [h4])

/-- Sorting hits by distance adds no new elements. -/
theorem mem_sortHits (x : QueryHit) (l : List QueryHit) : x ∈ sortHits l → x ∈ l := by
  induction l with
  | nil => intro hx; simp [sortHits] at hx
  | cons h rest ih =>
    intro hx
    rcases mem_insertHit x h (sortHits rest) hx with h1 | h1
    · simp [h1]
    · simp [ih h1]

/-- Core of claim C2: whenever the computed where clause is the equality
filter on the metadata key subject with value `v`, every result of
`search` carries subject `v`. -/
theorem search_filtered_subject (col : Collection) (embed : Str → Option (List Int))
    (query v : Str) (n : Nat)
    (hw : whereFor v = some ("subject".data, v)) :
    ∀ r ∈ search col embed query v n, r.subject = v := by
  intro r hr
  simp only [search, searchWith, hw] at hr
  rw [List.mem_map] at hr
  obtain ⟨h, hh, rfl⟩ := hr
  simp only [chromaQuery] at hh
  have hh2 := List.mem_of_mem_take hh
  have hh3 := mem_sortHits _ _ hh2
  rw [List.mem_map] at hh3
  obtain ⟨e, he, rfl⟩ := hh3
  rw [List.mem_filter] at he
  have hsubj : metaGet e.metadata "subject".data = some v := by
    have hbeq := he.2
    simpa using hbeq
  simp only [formatHit, metaGetD, hsubj, Option.getD_some]

/-- Claim C2: a search with subject filter math (or english) applies the
equality filter on the metadata key subject and never returns a result
whose subject differs from the filter value, for every query and positive
result count; the filter value all produces no where clause. -/
theorem c2_subject_filter (col : Collection) (embed : Str → Option (List Int))
    (query : Str) (n : Nat) (hn : 0 < n) :
    (∀ r ∈ search col embed query "math".data n, r.subject = "math".data) ∧
    (∀ r ∈ search col embed query "english".data n, r.subject = "english".data) ∧
    whereFor "all".data = none := by
  refine ⟨?_, ?_, by decide⟩
  · exact search_filtered_subject col embed query "math".data n (by decide)
  · exact search_filtered_subject col embed query "english".data n (by decide)

/-- Witness for C2 at a concrete input: a collection holding one math and
one english entry, searched with result count 2. -/
theorem c2_subject_filter_witness :
    0 < 2 ∧
    ((∀ r ∈ search [sampleEntryMath, sampleEntryEnglish] (fun _ => some [0, 0])
        "q".data "math".data 2, r.subject = "math".data) ∧
     (∀ r ∈ search [sampleEntryMath, sampleEntryEnglish] (fun _ => some [0, 0])
        "q".data "english".data 2, r.subject = "english".data) ∧
     whereFor "all".data = none) :=
  ⟨by decide,
   c2_subject_filter [sampleEntryMath, sampleEntryEnglish] (fun _ => some [0, 0])
     "q".data 2 (by decide)⟩

/-- Claim C5: the indexing embedding step returns exactly one vector per
input text; position by position the vector is the provider vector on
success and the 768-dimensional zero vector on failure; and when the
provider only ever returns 768-dimensional vectors, every produced vector
has dimension 768. -/
theorem c5_embeddings_per_text (embed : Str → Option (List Int)) (texts : List Str)
    (hdim : ∀ t v, embed t = some v → v.length = 768) :
    (generate_embeddings embed texts).length = texts.length ∧
    (∀ i : Nat, (generate_embeddings embed texts)[i]?
      = (texts[i]?).map (fun t => (embed t).getD (List.replicate 768 0))) ∧
    ∀ v ∈ generate_embeddings embed texts, v.length = 768 := by
  refine ⟨List.length_map texts _, ?_, ?_⟩
  · intro i
    simp [generate_embeddings]
  · intro v hv
    simp only [generate_embeddings, List.mem_map] at hv
    obtain ⟨t, _, rfl⟩ := hv
    cases hemb : embed t with
    | none => simp [hemb]
    | some w => simp [hemb, hdim t w hemb]

/-- Witness for C5 at a concrete input: a provider failing on every text
still yields one zero vector for the single input text. -/
theorem c5_embeddings_per_text_witness :
    (∀ t v, (fun _ : Str => (none : Option (List Int))) t = some v → v.length = 768) ∧
    ((generate_embeddings (fun _ => none) ["a".data]).length = ["a".data].length ∧
     (∀ i : Nat, (generate_embeddings (fun _ => none) ["a".data])[i]?
       = (["a".data][i]?).map (fun t => ((fun _ : Str => (none : Option (List Int))) t).getD
           (List.replicate 768 0))) ∧
     ∀ v ∈ generate_embeddings (fun _ => none) ["a".data], v.length = 768) :=
  ⟨fun _ _ h => Option.noConfusion h,
   c5_embeddings_per_text (fun _ => none) ["a".data] (fun _ _ h => Option.noConfusion h)⟩

/-- Claim C6, amended: a bulk-add failure of the store makes the index
build fail with that very error; a provider failing on every text is not
fatal to the build (it succeeds whenever the bulk add does); but a store
failure during `search` is swallowed, the caller receives the plain empty
result list rather than an error. -/
theorem c6_error_taxonomy (embed : Str → Option (List Int))
    (add : List Str → List Metadata → List (List Int) → List Str → Except Str Unit)
    (documents : List Str) (metadatas : List Metadata) (ids : List Str)
    (e : Str) (query subject_filter : Str) (n : Nat) :
    (documents ≠ [] →
      add documents metadatas (generate_embeddings embed documents) ids = Except.error e →
      build_knowledge_index embed add documents metadatas ids = Except.error e) ∧
    (add documents metadatas (generate_embeddings (fun _ => none) documents) ids = Except.ok () →
      build_knowledge_index (fun _ => none) add documents metadatas ids = Except.ok ()) ∧
    searchWith embed (fun _ _ _ => Except.error e) query subject_filter n = [] := by
  refine ⟨?_, ?_, rfl⟩
  · intro hne hadd
    have hempty : documents.isEmpty = false := by
      cases documents with
      | nil => exact absurd rfl hne
      | cons d ds => rfl
    simp only [build_knowledge_index, hempty, Bool.false_eq_true, if_false, hadd]
  · intro hadd
    cases documents with
    | nil => rfl
    | cons d ds =>
      simp only [build_knowledge_index, List.isEmpty_cons, Bool.false_eq_true, if_false, hadd]

/-- Witness for C6 at concrete inputs: a failing bulk add aborts the
build with its error, a succeeding bulk add completes the build even
though every embedding call failed, and a search against a failing store
returns the empty list. -/
theorem c6_error_taxonomy_witness :
    build_knowledge_index (fun _ => none) (fun _ _ _ _ => Except.error "boom".data)
      ["d".data] [sampleMeta] ["i".data] = Except.error "boom".data ∧
    build_knowledge_index (fun _ => none) (fun _ _ _ _ => Except.ok ())
      ["d".data] [sampleMeta] ["i".data] = Except.ok () ∧
    searchWith (fun _ => none) (fun _ _ _ => Except.error "boom".data)
      "q".data "all".data 5 = [] :=
  ⟨(c6_error_taxonomy (fun _ => none) (fun _ _ _ _ => Except.error "boom".data)
      ["d".data] [sampleMeta] ["i".data] "boom".data "q".data "all".data 5).1
      (by decide) rfl,
   (c6_error_taxonomy (fun _ => none) (fun _ _ _ _ => Except.ok ())
      ["d".data] [sampleMeta] ["i".data] "boom".data "q".data "all".data 5).2.1 rfl,
   (c6_error_taxonomy (fun _ => none) (fun _ _ _ _ => Except.error "boom".data)
      ["d".data] [sampleMeta] ["i".data] "boom".data "q".data "all".data 5).2.2⟩

/-- Counterexample to claim C6 as stated: a store failure during `search`
is not surfaced to the caller; the call returns the ordinary empty result
list, indistinguishable from a successful search of an empty collection. -/
theorem c6_counterexample :
    searchWith (fun _ => none) (fun _ _ _ => Except.error "store failure".data)
      "q".data "all".data 5 = [] ∧
    search [] (fun _ => none) "q".data "all".data 5 = [] :=
  ⟨rfl, by decide⟩

/-- Claim C7: under the inclusion guard, a result whose content strictly
exceeds the available budget is cut to exactly the available length and
its block ends with the ellipsis marker, while a result whose content fits
is included verbatim; either way the emitted head block is the header, a
newline and the clipped content. -/
theorem c7_truncation_boundary (maxLen current : Nat) (r : FormattedResult)
    (rest : List FormattedResult)
    (hav : 100 < availableLength maxLen current (sourceInfo r)) :
    (availableLength maxLen current (sourceInfo r) < (r.content.length : Int) →
      clippedContent (availableLength maxLen current (sourceInfo r)) r.content
        = r.content.take (availableLength maxLen current (sourceInfo r)).toNat ++ "...".data ∧
      (r.content.take (availableLength maxLen current (sourceInfo r)).toNat).length
        = (availableLength maxLen current (sourceInfo r)).toNat ∧
      "...".data <:+ clippedContent (availableLength maxLen current (sourceInfo r)) r.content) ∧
    ((r.content.length : Int) ≤ availableLength maxLen current (sourceInfo r) →
      clippedContent (availableLength maxLen current (sourceInfo r)) r.content = r.content) ∧
    (assembleParts maxLen (r :: rest) current).head?
      = some (blockFor (availableLength maxLen current (sourceInfo r)) r) := by
  refine ⟨?_, ?_, ?_⟩
  · intro hlong
    have heq : clippedContent (availableLength maxLen current (sourceInfo r)) r.content
        = r.content.take (availableLength maxLen current (sourceInfo r)).toNat ++ "...".data := by
      simp only [clippedContent, if_pos hlong]
    refine ⟨heq, ?_, ?_⟩
    · rw [List.length_take]
      omega
    · rw [heq]
      exact List.suffix_append _ _
  · intro hfits
    simp only [clippedContent, if_neg (not_lt.mpr hfits)]
  · by_cases h2 : maxLen ≤ current + addedLen (availableLength maxLen current (sourceInfo r)) r
    · simp only [assembleParts, if_pos hav, if_pos h2, List.head?_cons]
    · simp only [assembleParts, if_pos hav, if_neg h2, List.head?_cons]

/-- Witness for C7 at a concrete input: 300 characters of content against
an available budget of 171 inside a budget of 200. -/
theorem c7_truncation_boundary_witness :
    100 < availableLength 200 0 (sourceInfo longContentResult) ∧
    ((availableLength 200 0 (sourceInfo longContentResult)
        < (longContentResult.content.length : Int) →
      clippedContent (availableLength 200 0 (sourceInfo longContentResult))
          longContentResult.content
        = longContentResult.content.take
            (availableLength 200 0 (sourceInfo longContentResult)).toNat ++ "...".data ∧
      (longContentResult.content.take
          (availableLength 200 0 (sourceInfo longContentResult)).toNat).length
        = (availableLength 200 0 (sourceInfo longContentResult)).toNat ∧
      "...".data <:+ clippedContent (availableLength 200 0 (sourceInfo longContentResult))
          longContentResult.content) ∧
     ((longContentResult.content.length : Int)
        ≤ availableLength 200 0 (sourceInfo longContentResult) →
      clippedContent (availableLength 200 0 (sourceInfo longContentResult))
          longContentResult.content = longContentResult.content) ∧
     (assembleParts 200 [longContentResult] 0).head?
       = some (blockFor (availableLength 200 0 (sourceInfo longContentResult))
           longContentResult)) :=
  ⟨by decide, c7_truncation_boundary 200 0 longContentResult [] (by decide)⟩

/-- Claim C8: when the backing collection already exists at construction
time, initialization loads it unchanged and the index build is skipped
entirely, whatever the document store or the embedding provider would
yield; the build runs exactly when no collection existed, and an explicit
rebuild always clears and repopulates from scratch. -/
theorem c8_init_skips_build (c : Collection) (embed embed2 : Str → Option (List Int))
    (documents documents2 : List Str) (metadatas metadatas2 : List Metadata)
    (ids ids2 : List Str) (anyState : Option Collection) :
    rag_init (some c) embed documents metadatas ids = (some c, c) ∧
    rag_init (some c) embed documents metadatas ids
      = rag_init (some c) embed2 documents2 metadatas2 ids2 ∧
    rag_init none embed documents metadatas ids
      = (some (build_collection embed documents metadatas ids),
         build_collection embed documents metadatas ids) ∧
    rebuild_index anyState embed documents metadatas ids
      = (some (build_collection embed documents metadatas ids),
         build_collection embed documents metadatas ids) :=
  ⟨rfl, rfl, rfl, rfl⟩

/-- The assembly loop emits at most one block per result. -/
theorem assembleParts_length_le (maxLen : Nat) (results : List FormattedResult) :
    ∀ current : Nat, (assembleParts maxLen results current).length ≤ results.length := by
  induction results with
  | nil => intro current; simp [assembleParts]
  | cons r rest ih =>
    intro current
    by_cases h1 : 100 < availableLength maxLen current (sourceInfo r)
    · by_cases h2 : maxLen ≤ current + addedLen (availableLength maxLen current (sourceInfo r)) r
      · simp only [assembleParts, if_pos h1, if_pos h2, List.length_singleton, List.length_cons,
          List.length_nil]
        omega
      · simp only [assembleParts, if_pos h1, if_neg h2, List.length_cons]
        have := ih (current + addedLen (availableLength maxLen current (sourceInfo r)) r)
        omega
    · by_cases h2 : maxLen ≤ current
      · simp only [assembleParts, if_neg h1, if_pos h2, List.length_nil, List.length_cons]
        omega
      · simp only [assembleParts, if_neg h1, if_neg h2, List.length_cons]
        have := ih current
        omega

/-- Claim C9: the context operation always requests exactly 3 results from
`search` internally, whatever its maximum context length; the internal
search returns at most 3 results and the assembled context therefore holds
at most 3 source blocks. -/
theorem c9_at_most_three_blocks (col : Collection) (embed : Str → Option (List Int))
    (query subject_filter : Str) (maxLen : Nat) :
    get_relevant_context col embed query subject_filter maxLen
      = contextFromResults (search col embed query subject_filter 3) maxLen ∧
    (search col embed query subject_filter 3).length ≤ 3 ∧
    (assembleParts maxLen (search col embed query subject_filter 3) 0).length ≤ 3 := by
  have hlen : (search col embed query subject_filter 3).length ≤ 3 := by
    simp only [search, searchWith, chromaQuery, List.length_map, List.length_take]
    omega
  refine ⟨rfl, hlen, ?_⟩
  exact le_trans (assembleParts_length_le maxLen _ 0) hlen

end SATRag
